import Mathlib

/-!
Shallow embedding of the orchestration core of the due-diligence workflow
(`src/workflows/due_diligence.py`, `src/state/definitions.py`,
`src/state/checkpointer.py`) and proofs about its routing, batching,
failure-containment and state-frame behaviour.

Python dictionaries are modelled as association lists, `datetime` values as
`Nat` timestamps, floats carried opaquely as `Int` (no arithmetic on them is
performed by the orchestration core), and a raised exception of a worker
adapter as `Except.error`.
-/

/-- TaskStatus enum (definitions.py 10-14). -/
inductive TaskStatus
  | pending
  | in_progress
  | completed
  | failed
deriving DecidableEq, Repr

/-- Payload returned by a worker adapter on success: the dict
`\x7bresults, citations, confidence\x7d` consumed at due_diligence.py 136-140. -/
structure TaskOutcome where
  results : List (String × String)
  citations : List String
  confidence : Int
deriving DecidableEq, Repr

/-- ResearchTask (definitions.py 22-33). -/
structure ResearchTask where
  id : String
  description : String
  priority : Nat
  status : TaskStatus
  assigned_agent : String
  output_schema : List (String × String)
  results : List (String × String)
  citations : List String
  confidence_score : Int
  created_at : Nat
  completed_at : Option Nat
deriving DecidableEq, Repr

/-- DueDiligenceState (definitions.py 35-64). -/
structure DueDiligenceState where
  messages : List String
  query : String
  entity_type : String
  entity_name : String
  tasks : List ResearchTask
  research_plan : String
  raw_findings : List (String × String)
  synthesized_report : String
  citations : List String
  confidence_scores : List (String × Int)
  thread_id : String
  session_id : String
  user_id : Option String
  metadata : List (String × String)
  ready_for_synthesis : Bool
  human_feedback_required : Bool
  completed : Bool
deriving DecidableEq, Repr

/-- Uniform worker contract `execute_task(task)`: returns an outcome or raises
(modelled as `Except.error`). -/
abbrev WorkerAdapter := ResearchTask → Except String TaskOutcome

/-- The five concrete agents held by `DueDiligenceWorkflow.__init__`
(due_diligence.py 19-25), abstracted behind the uniform contract. -/
structure Agents where
  research : WorkerAdapter
  financial : WorkerAdapter
  legal : WorkerAdapter
  osint : WorkerAdapter
  verification : WorkerAdapter

/-- The if/elif dispatch chain of `_execute_single_task`
(due_diligence.py 150-160): resolve `assigned_agent` by runtime string
comparison; an unknown name resolves to nothing. -/
def agent_for (ag : Agents) (name : String) : Option WorkerAdapter :=
  if name = "research" then some ag.research
  else if name = "financial" then some ag.financial
  else if name = "legal" then some ag.legal
  else if name = "osint" then some ag.osint
  else if name = "verification" then some ag.verification
  else none

/-- `_execute_single_task` (due_diligence.py 147-164): dispatch on
`task.assigned_agent`; any exception raised by the adapter is caught and the
function returns `None`; an unknown agent also returns `None`. -/
def execute_single_task (ag : Agents) (task : ResearchTask) : Option TaskOutcome :=
  match agent_for ag task.assigned_agent with
  | some f =>
    match f task with
    | Except.ok r => some r
    | Except.error _ => none
  | none => none

/-- Line 127: `task.status = TaskStatus.IN_PROGRESS` before dispatch. -/
def mark_in_progress (t : ResearchTask) : ResearchTask :=
  { t with status := TaskStatus.in_progress }

/-- Lines 136-143: on a result, write results/citations/confidence and mark
COMPLETED; on `None`, mark FAILED (and touch nothing else). -/
def record_result (t : ResearchTask) : Option TaskOutcome → ResearchTask
  | some r =>
    { t with results := r.results, citations := r.citations,
             confidence_score := r.confidence, status := TaskStatus.completed }
  | none => { t with status := TaskStatus.failed }

/-- One pass of the loop body (lines 126-143) over a single batch: mark every
task of the batch IN_PROGRESS, gather the per-task outcomes (order-preserving,
exceptions already contained inside `execute_single_task`), and zip the
outcomes back onto the batch. -/
def run_batch (ag : Agents) (batch : List ResearchTask) : List ResearchTask :=
  let in_prog := batch.map mark_in_progress
  let results := in_prog.map (execute_single_task ag)
  (in_prog.zip results).map (fun p => record_result p.1 p.2)

/-- End-to-end effect of the batch machinery on one pending task. -/
def resolve_pending (ag : Agents) (t : ResearchTask) : ResearchTask :=
  record_result (mark_in_progress t) (execute_single_task ag (mark_in_progress t))

/-- Consecutive slices of size `n`, as produced by
`for i in range(0, len(l), n): l[i:i+n]` (due_diligence.py 122-123).
Structural recursion on a fuel argument (the wrapper passes `l.length`,
always enough fuel when `1 ≤ n`). -/
def chunks_aux (n : Nat) : Nat → List ResearchTask → List (List ResearchTask)
  | _, [] => []
  | 0, l => [l]
  | fuel + 1, l => l.take n :: chunks_aux n fuel (l.drop n)

/-- The batch slicing of due_diligence.py 122-123. -/
def chunks (n : Nat) (l : List ResearchTask) : List (List ResearchTask) :=
  chunks_aux n l.length l

/-- Ceiling division, `ceil(a / b)` on naturals. -/
def ceil_div (a b : Nat) : Nat := (a + b - 1) / b

/-- In the source the batch loop mutates the shared task objects in place:
the k-th Pending element of `state["tasks"]` is the k-th element of the
`pending_tasks` snapshot. `merge_resolved ts rs` writes the successive
elements of `rs` over the successive Pending positions of `ts`. -/
def merge_resolved : List ResearchTask → List ResearchTask → List ResearchTask
  | [], _ => []
  | t :: ts, rs =>
    if t.status == TaskStatus.pending then
      match rs with
      | r :: rs2 => r :: merge_resolved ts rs2
      | [] => t :: merge_resolved ts []
    else
      t :: merge_resolved ts rs

/-- The batches formed by one invocation of the executor node: the Pending
snapshot sliced with `batch_size = min(len(pending_tasks), 3)`
(due_diligence.py 114, 120, 122-123). -/
def executor_batches (s : DueDiligenceState) : List (List ResearchTask) :=
  let pending := s.tasks.filter (fun t => t.status == TaskStatus.pending)
  chunks (min pending.length 3) pending

/-- `_task_executor_node` (due_diligence.py 112-145): snapshot the Pending
tasks; with none, return the state with `ready_for_synthesis` set; otherwise
run every batch and return the state with the (in-place mutated) task list. -/
def task_executor_node (ag : Agents) (s : DueDiligenceState) : DueDiligenceState :=
  let pending := s.tasks.filter (fun t => t.status == TaskStatus.pending)
  if pending.isEmpty then
    { s with ready_for_synthesis := true }
  else
    let resolved := ((chunks (min pending.length 3) pending).map (run_batch ag)).flatten
    { s with tasks := merge_resolved s.tasks resolved }

/-- `_route_tasks` (due_diligence.py 166-174): the `assigned_agent` of the
first Pending task in list order, else the sentinel string. -/
def route_tasks (s : DueDiligenceState) : String :=
  match s.tasks.find? (fun t => t.status == TaskStatus.pending) with
  | some t => t.assigned_agent
  | none => "complete"

/-- Node names registered by `_build_graph` (due_diligence.py 61-68). -/
def graph_nodes : List String :=
  ["supervisor", "planner", "task_executor", "research", "financial", "legal",
   "osint", "verification"]

/-- Fixed edges registered by `_build_graph` (due_diligence.py 72-74, 91-97). -/
def fixed_edges : List (String × String) :=
  [("START", "supervisor"), ("supervisor", "planner"), ("planner", "task_executor"),
   ("research", "task_executor"), ("financial", "task_executor"),
   ("legal", "task_executor"), ("osint", "task_executor"),
   ("verification", "task_executor"), ("supervisor", "END")]

/-- The outcome map of the conditional edge from `task_executor`
(due_diligence.py 77-88). -/
def conditional_edge_map : List (String × String) :=
  [("research", "research"), ("financial", "financial"), ("legal", "legal"),
   ("osint", "osint"), ("verification", "verification"), ("complete", "supervisor")]

/-- A built (uncompiled) graph value. -/
structure Graph where
  nodes : List String
  edges : List (String × String)
  cond_map : List (String × String)
deriving DecidableEq, Repr

/-- `_build_graph` (due_diligence.py 54-99). It registers the nodes and edges
above, inspects no task data, and is total: no validation of
`assigned_agent` values happens here and no error can be raised. -/
def build_graph : Graph :=
  { nodes := graph_nodes, edges := fixed_edges, cond_map := conditional_edge_map }

/-- The node the conditional edge of `task_executor` leads to for a given
routing outcome. -/
def cond_target (g : Graph) (outcome : String) : Option String :=
  (g.cond_map.find? (fun p => p.1 == outcome)).map Prod.snd

/-- The five agent names reachable from the dispatch chain of
`_execute_single_task` (the de-facto worker registry). -/
def registered_agents : List String :=
  ["research", "financial", "legal", "osint", "verification"]

/-- A compiled graph: `graph.compile(...)` with or without a checkpointer
attached. The checkpointer is carried opaquely as a name. -/
structure CompiledGraph where
  graph : Graph
  checkpointer : Option String
deriving DecidableEq, Repr

/-- `_ensure_compiled` (due_diligence.py 33-52) on first call
(`self.compiled is None`). `create_checkpointer` stands for the awaited
`checkpointer_factory.create_checkpointer()` call: `Except.ok` a checkpointer,
or `Except.error` when checkpointer creation raises. The `except` branch at
lines 48-51 catches every exception and compiles without a checkpointer. -/
def ensure_compiled (disable_checkpointing : Bool)
    (create_checkpointer : Except String String) : CompiledGraph :=
  if disable_checkpointing then
    { graph := build_graph, checkpointer := none }
  else
    match create_checkpointer with
    | Except.ok cp => { graph := build_graph, checkpointer := some cp }
    | Except.error _ => { graph := build_graph, checkpointer := none }

/-- The monotonic task-status transitions named by the spec:
Pending→InProgress and InProgress→\x7bCompleted,Failed\x7d. -/
inductive StatusStep : TaskStatus → TaskStatus → Prop
  | start : StatusStep TaskStatus.pending TaskStatus.in_progress
  | finish_ok : StatusStep TaskStatus.in_progress TaskStatus.completed
  | finish_err : StatusStep TaskStatus.in_progress TaskStatus.failed

/-! ### Basic properties of the batching machinery -/

theorem run_batch_eq_map (ag : Agents) (l : List ResearchTask) :
    run_batch ag l = l.map (resolve_pending ag) := by
  have hz : ∀ m : List ResearchTask,
      (m.zip (m.map (execute_single_task ag))).map (fun p => record_result p.1 p.2)
        = m.map (fun t => record_result t (execute_single_task ag t)) := by
    intro m
    induction m with
    | nil => rfl
    | cons t ts ih => simp only [List.map_cons, List.zip_cons_cons, ih]
  unfold run_batch
  rw [hz, List.map_map]
  rfl

theorem chunks_aux_flatten (n : Nat) (hn : 0 < n) :
    ∀ fuel (l : List ResearchTask), l.length ≤ fuel →
      (chunks_aux n fuel l).flatten = l := by
  intro fuel
  induction fuel with
  | zero =>
    intro l hl
    have hnil : l = [] := List.eq_nil_of_length_eq_zero (Nat.le_zero.mp hl)
    subst hnil; rfl
  | succ fuel ih =>
    intro l hl
    cases l with
    | nil => rfl
    | cons t ts =>
      have hd : ((t :: ts).drop n).length ≤ fuel := by
        rw [List.length_drop]
        simp only [List.length_cons] at hl ⊢
        omega
      show ((t :: ts).take n :: chunks_aux n fuel ((t :: ts).drop n)).flatten = t :: ts
      rw [List.flatten_cons, ih _ hd, List.take_append_drop]

theorem chunks_aux_mem_length (n : Nat) (hn : 0 < n) :
    ∀ fuel (l b : List ResearchTask), l.length ≤ fuel →
      b ∈ chunks_aux n fuel l → b.length ≤ n := by
  intro fuel
  induction fuel with
  | zero =>
    intro l b hl hb
    have hnil : l = [] := List.eq_nil_of_length_eq_zero (Nat.le_zero.mp hl)
    subst hnil
    simp [chunks_aux] at hb
  | succ fuel ih =>
    intro l b hl hb
    cases l with
    | nil => simp [chunks_aux] at hb
    | cons t ts =>
      have hd : ((t :: ts).drop n).length ≤ fuel := by
        rw [List.length_drop]
        simp only [List.length_cons] at hl ⊢
        omega
      have hb2 : b ∈ (t :: ts).take n :: chunks_aux n fuel ((t :: ts).drop n) := hb
      rcases List.mem_cons.mp hb2 with h | h
      · subst h
        rw [List.length_take]
        omega
      · exact ih _ _ hd h

theorem ceil_div_sub (m n : Nat) (hm : 0 < m) (hn : 0 < n) :
    ceil_div (m - n) n + 1 = ceil_div m n := by
  unfold ceil_div
  rcases le_or_lt m n with h | h
  · have h1 : m - n = 0 := by omega
    rw [h1]
    have h2 : (0 + n - 1) / n = 0 := Nat.div_eq_of_lt (by omega)
    rw [h2]
    have h3 : m + n - 1 = (m - 1) + n := by omega
    rw [h3, Nat.add_div_right _ hn, Nat.div_eq_of_lt (by omega)]
  · have h3 : m + n - 1 = (m - n + n - 1) + n := by omega
    rw [h3, Nat.add_div_right _ hn]

theorem chunks_aux_length (n : Nat) (hn : 0 < n) :
    ∀ fuel (l : List ResearchTask), l.length ≤ fuel →
      (chunks_aux n fuel l).length = ceil_div l.length n := by
  intro fuel
  induction fuel with
  | zero =>
    intro l hl
    have hnil : l = [] := List.eq_nil_of_length_eq_zero (Nat.le_zero.mp hl)
    subst hnil
    show 0 = ceil_div 0 n
    unfold ceil_div
    rw [Nat.div_eq_of_lt (by omega)]
  | succ fuel ih =>
    intro l hl
    cases l with
    | nil =>
      show 0 = ceil_div 0 n
      unfold ceil_div
      rw [Nat.div_eq_of_lt (by omega)]
    | cons t ts =>
      have hd : ((t :: ts).drop n).length ≤ fuel := by
        rw [List.length_drop]
        simp only [List.length_cons] at hl ⊢
        omega
      show ((t :: ts).take n :: chunks_aux n fuel ((t :: ts).drop n)).length
            = ceil_div (t :: ts).length n
      rw [List.length_cons, ih _ hd, List.length_drop]
      exact ceil_div_sub _ n (by simp) hn

theorem chunks_flatten (n : Nat) (hn : 0 < n) (l : List ResearchTask) :
    (chunks n l).flatten = l :=
  chunks_aux_flatten n hn l.length l (Nat.le_refl _)

theorem chunks_length (n : Nat) (hn : 0 < n) (l : List ResearchTask) :
    (chunks n l).length = ceil_div l.length n :=
  chunks_aux_length n hn l.length l (Nat.le_refl _)

theorem chunks_mem_length (n : Nat) (hn : 0 < n) (l b : List ResearchTask)
    (hb : b ∈ chunks n l) : b.length ≤ n :=
  chunks_aux_mem_length n hn l.length l b (Nat.le_refl _) hb

theorem merge_resolved_map_filter (f : ResearchTask → ResearchTask)
    (ts : List ResearchTask) :
    merge_resolved ts ((ts.filter (fun t => t.status == TaskStatus.pending)).map f)
      = ts.map (fun t => if t.status == TaskStatus.pending then f t else t) := by
  induction ts with
  | nil => rfl
  | cons t ts ih =>
    rw [List.filter_cons]
    by_cases hp : t.status == TaskStatus.pending
    · simp [merge_resolved, hp, ih]
      rw [if_pos (by simpa using hp)]
    · simp [merge_resolved, hp, ih]
      rw [if_neg (by simpa using hp)]

/-! ### Per-task behaviour of the executor -/

theorem resolve_pending_status (ag : Agents) (t : ResearchTask) :
    (resolve_pending ag t).status = TaskStatus.completed ∨
    (resolve_pending ag t).status = TaskStatus.failed := by
  cases h : execute_single_task ag (mark_in_progress t) with
  | some r => left; simp [resolve_pending, record_result, h]
  | none => right; simp [resolve_pending, record_result, h]

theorem resolve_pending_of_none (ag : Agents) (t : ResearchTask)
    (h : execute_single_task ag (mark_in_progress t) = none) :
    resolve_pending ag t = { t with status := TaskStatus.failed } := by
  unfold resolve_pending
  rw [h]
  rfl

theorem resolve_pending_frame (ag : Agents) (t : ResearchTask) :
    (resolve_pending ag t).id = t.id ∧
    (resolve_pending ag t).description = t.description ∧
    (resolve_pending ag t).priority = t.priority ∧
    (resolve_pending ag t).assigned_agent = t.assigned_agent ∧
    (resolve_pending ag t).output_schema = t.output_schema ∧
    (resolve_pending ag t).created_at = t.created_at ∧
    (resolve_pending ag t).completed_at = t.completed_at := by
  unfold resolve_pending
  cases h : execute_single_task ag (mark_in_progress t) <;>
    simp [record_result, mark_in_progress]

theorem execute_single_task_of_error (ag : Agents) (t : ResearchTask)
    (f : WorkerAdapter) (e : String) (hf : agent_for ag t.assigned_agent = some f)
    (he : f t = Except.error e) : execute_single_task ag t = none := by
  simp [execute_single_task, hf, he]

theorem agent_for_eq_none (ag : Agents) (name : String)
    (h : name ∉ registered_agents) : agent_for ag name = none := by
  simp only [registered_agents, List.mem_cons, List.not_mem_nil, or_false] at h
  push_neg at h
  obtain ⟨h1, h2, h3, h4, h5⟩ := h
  simp [agent_for, h1, h2, h3, h4, h5]

theorem filter_pending_nonempty_of_not_isEmpty (s : DueDiligenceState)
    (hp : ¬ (s.tasks.filter (fun t => t.status == TaskStatus.pending)).isEmpty = true) :
    0 < (s.tasks.filter (fun t => t.status == TaskStatus.pending)).length := by
  cases hfl : s.tasks.filter (fun t => t.status == TaskStatus.pending) with
  | nil => exact absurd (by rw [hfl]; rfl) hp
  | cons a l => simp

theorem task_executor_eq (ag : Agents) (s : DueDiligenceState) :
    task_executor_node ag s
      = { s with
          tasks := s.tasks.map
            (fun t => if t.status == TaskStatus.pending then resolve_pending ag t else t),
          ready_for_synthesis :=
            ((s.tasks.filter (fun t => t.status == TaskStatus.pending)).isEmpty
              || s.ready_for_synthesis) } := by
  simp only [task_executor_node]
  by_cases hp : (s.tasks.filter (fun t => t.status == TaskStatus.pending)).isEmpty = true
  · rw [if_pos hp, hp, Bool.true_or]
    have hall : ∀ t ∈ s.tasks, (t.status == TaskStatus.pending) = false := by
      intro t ht
      have hnp := List.filter_eq_nil_iff.mp (List.isEmpty_iff.mp hp) t ht
      simpa using hnp
    have hmap : s.tasks.map
        (fun t => if t.status == TaskStatus.pending then resolve_pending ag t else t)
          = s.tasks := by
      have hcg : s.tasks.map
          (fun t => if t.status == TaskStatus.pending then resolve_pending ag t else t)
            = s.tasks.map id := by
        apply List.map_congr_left
        intro t ht
        rw [hall t ht]
        rfl
      rw [hcg, List.map_id]
    rw [hmap]
  · rw [if_neg hp]
    have hpos : 0 < (s.tasks.filter (fun t => t.status == TaskStatus.pending)).length :=
      filter_pending_nonempty_of_not_isEmpty s hp
    have hn : 0 < min (s.tasks.filter (fun t => t.status == TaskStatus.pending)).length 3 := by
      omega
    have h1 : (chunks (min (s.tasks.filter (fun t => t.status == TaskStatus.pending)).length 3)
                (s.tasks.filter (fun t => t.status == TaskStatus.pending))).map (run_batch ag)
            = (chunks (min (s.tasks.filter (fun t => t.status == TaskStatus.pending)).length 3)
                (s.tasks.filter (fun t => t.status == TaskStatus.pending))).map
                  (List.map (resolve_pending ag)) :=
      List.map_congr_left (fun b _ => run_batch_eq_map ag b)
    rw [h1, ← List.map_flatten, chunks_flatten _ hn, merge_resolved_map_filter]
    have hflag : (s.tasks.filter (fun t => t.status == TaskStatus.pending)).isEmpty = false :=
      Bool.not_eq_true _ |>.mp hp
    rw [hflag, Bool.false_or]

theorem task_executor_tasks (ag : Agents) (s : DueDiligenceState) :
    (task_executor_node ag s).tasks
      = s.tasks.map
          (fun t => if t.status == TaskStatus.pending then resolve_pending ag t else t) := by
  rw [task_executor_eq]

theorem task_executor_flag (ag : Agents) (s : DueDiligenceState) :
    (task_executor_node ag s).ready_for_synthesis
      = ((s.tasks.filter (fun t => t.status == TaskStatus.pending)).isEmpty
          || s.ready_for_synthesis) := by
  rw [task_executor_eq]

theorem task_executor_no_pending (ag : Agents) (s : DueDiligenceState) :
    ∀ t ∈ (task_executor_node ag s).tasks, t.status ≠ TaskStatus.pending := by
  intro t ht
  rw [task_executor_tasks] at ht
  obtain ⟨u, hu, rfl⟩ := List.mem_map.mp ht
  by_cases hp : u.status == TaskStatus.pending
  · rw [if_pos hp]
    rcases resolve_pending_status ag u with h | h <;> simp [h]
  · rw [if_neg hp]
    intro hcon
    exact hp (by simp [hcon])

theorem route_tasks_eq_complete (s : DueDiligenceState)
    (h : ∀ t ∈ s.tasks, t.status ≠ TaskStatus.pending) : route_tasks s = "complete" := by
  unfold route_tasks
  have hf : s.tasks.find? (fun t => t.status == TaskStatus.pending) = none := by
    rw [List.find?_eq_none]
    intro t ht
    simpa using h t ht
  rw [hf]

/-! ### Concrete fixtures for witnesses and counterexamples -/

/-- Convenience constructor for concrete test tasks. -/
def mk_task (i name : String) (st : TaskStatus) : ResearchTask :=
  { id := i, description := "d", priority := 5, status := st, assigned_agent := name,
    output_schema := [], results := [], citations := [], confidence_score := 0,
    created_at := 0, completed_at := none }

/-- Convenience constructor for concrete test states. -/
def mk_state (ts : List ResearchTask) : DueDiligenceState :=
  { messages := [], query := "q", entity_type := "company", entity_name := "acme",
    tasks := ts, research_plan := "", raw_findings := [], synthesized_report := "",
    citations := [], confidence_scores := [], thread_id := "t1", session_id := "t1",
    user_id := none, metadata := [], ready_for_synthesis := false,
    human_feedback_required := false, completed := false }

/-- A fixed successful outcome for test adapters. -/
def ok_outcome : TaskOutcome :=
  { results := [("summary", "ok")], citations := ["src1"], confidence := 1 }

/-- Concrete adapters that always succeed. -/
def ok_agents : Agents :=
  { research := fun _ => Except.ok ok_outcome
    financial := fun _ => Except.ok ok_outcome
    legal := fun _ => Except.ok ok_outcome
    osint := fun _ => Except.ok ok_outcome
    verification := fun _ => Except.ok ok_outcome }

/-- Concrete adapters whose research worker raises an exception. -/
def err_agents : Agents :=
  { research := fun _ => Except.error "boom"
    financial := fun _ => Except.ok ok_outcome
    legal := fun _ => Except.ok ok_outcome
    osint := fun _ => Except.ok ok_outcome
    verification := fun _ => Except.ok ok_outcome }

theorem find?_append_of_none (p : ResearchTask → Bool) :
    ∀ l1 l2 : List ResearchTask, (∀ u ∈ l1, p u = false) →
      List.find? p (l1 ++ l2) = List.find? p l2 := by
  intro l1
  induction l1 with
  | nil => intro l2 _; rfl
  | cons a l ih =>
    intro l2 h
    have ha : p a = false := h a (List.mem_cons_self a l)
    rw [List.cons_append, List.find?_cons, ha]
    exact ih l2 (fun u hu => h u (List.mem_cons_of_mem a hu))

/-! ### The claims -/

/-- C1 (amended): `_route_tasks` returns the `assignedWorker` of the first
Pending task in list order, and the sentinel when none is Pending; on an
empty task list it returns the sentinel. Because the sentinel is an
ordinary string compared against `assigned_agent` values, the biconditional
"returns the sentinel iff no task is Pending" holds on the states whose
tasks do not use the literal name "complete" as their worker. -/
theorem C1_route_first_pending (s : DueDiligenceState)
    (hs : ∀ t ∈ s.tasks, t.assigned_agent ≠ "complete") :
    (∀ l1 t l2, s.tasks = l1 ++ t :: l2 →
        (∀ u ∈ l1, u.status ≠ TaskStatus.pending) →
        t.status = TaskStatus.pending → route_tasks s = t.assigned_agent) ∧
    (route_tasks s = "complete" ↔ ∀ t ∈ s.tasks, t.status ≠ TaskStatus.pending) ∧
    (s.tasks = [] → route_tasks s = "complete") := by
  refine ⟨?_, ⟨?_, route_tasks_eq_complete s⟩, ?_⟩
  · intro l1 t l2 hsplit hnp hp
    unfold route_tasks
    rw [hsplit, find?_append_of_none _ l1 _ (fun u hu => by simpa using hnp u hu),
        List.find?_cons]
    have hpt : (t.status == TaskStatus.pending) = true := by simpa using hp
    rw [hpt]
  · intro hroute t ht hp
    have hne : s.tasks.find? (fun t => t.status == TaskStatus.pending) ≠ none := by
      intro hnone
      have hnp := List.find?_eq_none.mp hnone t ht
      simp only [beq_iff_eq] at hnp
      exact hnp hp
    obtain ⟨u, hu⟩ := Option.ne_none_iff_exists'.mp hne
    have hmem : u ∈ s.tasks := List.mem_of_find?_eq_some hu
    have : route_tasks s = u.assigned_agent := by
      unfold route_tasks
      rw [hu]
    exact hs u hmem (by rw [← this, hroute])
  · intro hnil
    unfold route_tasks
    rw [hnil]
    rfl

/-- C1 witness: on a two-task state (first Completed, second Pending,
workers "research" and "legal") the hypotheses hold and the routing facts
follow. -/
theorem C1_route_first_pending_witness :
    (∀ t ∈ (mk_state [mk_task "1" "research" TaskStatus.completed,
        mk_task "2" "legal" TaskStatus.pending]).tasks, t.assigned_agent ≠ "complete") ∧
    ((∀ l1 t l2, (mk_state [mk_task "1" "research" TaskStatus.completed,
          mk_task "2" "legal" TaskStatus.pending]).tasks = l1 ++ t :: l2 →
        (∀ u ∈ l1, u.status ≠ TaskStatus.pending) →
        t.status = TaskStatus.pending →
        route_tasks (mk_state [mk_task "1" "research" TaskStatus.completed,
          mk_task "2" "legal" TaskStatus.pending]) = t.assigned_agent) ∧
     (route_tasks (mk_state [mk_task "1" "research" TaskStatus.completed,
          mk_task "2" "legal" TaskStatus.pending]) = "complete" ↔
        ∀ t ∈ (mk_state [mk_task "1" "research" TaskStatus.completed,
          mk_task "2" "legal" TaskStatus.pending]).tasks, t.status ≠ TaskStatus.pending) ∧
     ((mk_state [mk_task "1" "research" TaskStatus.completed,
          mk_task "2" "legal" TaskStatus.pending]).tasks = [] →
        route_tasks (mk_state [mk_task "1" "research" TaskStatus.completed,
          mk_task "2" "legal" TaskStatus.pending]) = "complete")) :=
  ⟨by decide, C1_route_first_pending _ (by decide)⟩

/-- C1 counterexample: a Pending task whose `assigned_agent` is the literal
string "complete" makes `_route_tasks` return the sentinel although a
Pending task exists, so the unconditional "sentinel iff no Pending task"
reading of the claim is false on the code. -/
theorem C1_counterexample :
    route_tasks (mk_state [mk_task "1" "complete" TaskStatus.pending]) = "complete" ∧
    ∃ t ∈ (mk_state [mk_task "1" "complete" TaskStatus.pending]).tasks,
      t.status = TaskStatus.pending := by
  exact ⟨by decide, mk_task "1" "complete" TaskStatus.pending, by decide, rfl⟩

/-- C2: if the worker adapter resolved for a task of a batch raises during
execute, then after the batch that task is Failed; the batch call returns
normally (it is a total function whose output is the elementwise resolution
of the batch), and every sibling task receives exactly the outcome it would
receive alone, so siblings are unaffected. -/
theorem C2_adapter_exception_contained (ag : Agents) (batch : List ResearchTask)
    (t : ResearchTask) (ht : t ∈ batch) (f : WorkerAdapter) (e : String)
    (hf : agent_for ag t.assigned_agent = some f)
    (he : f (mark_in_progress t) = Except.error e) :
    run_batch ag batch = batch.map (resolve_pending ag) ∧
    (resolve_pending ag t).status = TaskStatus.failed ∧
    resolve_pending ag t ∈ run_batch ag batch := by
  have hexec : execute_single_task ag (mark_in_progress t) = none :=
    execute_single_task_of_error ag (mark_in_progress t) f e hf he
  refine ⟨run_batch_eq_map ag batch, ?_, ?_⟩
  · rw [resolve_pending_of_none ag t hexec]
  · rw [run_batch_eq_map]
    exact List.mem_map_of_mem _ ht

/-- C2 witness: a two-task batch where the research adapter raises; the
erroring task ends Failed and the batch output is the elementwise map. -/
theorem C2_adapter_exception_contained_witness :
    run_batch err_agents [mk_task "1" "research" TaskStatus.pending,
        mk_task "2" "legal" TaskStatus.pending]
      = [mk_task "1" "research" TaskStatus.pending,
         mk_task "2" "legal" TaskStatus.pending].map (resolve_pending err_agents) ∧
    (resolve_pending err_agents (mk_task "1" "research" TaskStatus.pending)).status
      = TaskStatus.failed ∧
    resolve_pending err_agents (mk_task "1" "research" TaskStatus.pending)
      ∈ run_batch err_agents [mk_task "1" "research" TaskStatus.pending,
          mk_task "2" "legal" TaskStatus.pending] :=
  C2_adapter_exception_contained err_agents _ _ (by decide) err_agents.research "boom" rfl rfl

/-- C3 counterexample: one Pending task and the flag false on entry; the
executor resolves the task, so no Pending task remains in the produced
state, yet the produced `ready_for_synthesis` is still false. The flag is
therefore not true "exactly when no Task has status Pending" in states
produced by an orchestration step. -/
theorem C3_counterexample :
    (∀ t ∈ (task_executor_node ok_agents
        (mk_state [mk_task "1" "research" TaskStatus.pending])).tasks,
      t.status ≠ TaskStatus.pending) ∧
    (task_executor_node ok_agents
        (mk_state [mk_task "1" "research" TaskStatus.pending])).ready_for_synthesis
      = false := by
  decide

/-- C3 (amended): after one executor step the flag equals "the node was
ENTERED with no Pending task, or the flag was already true". A step that
resolves the last Pending tasks leaves the flag at its input value; the
flag becomes true only on a subsequent invocation whose entry state has no
Pending task. -/
theorem C3_flag_set_on_entry_without_pending (ag : Agents) (s : DueDiligenceState) :
    (task_executor_node ag s).ready_for_synthesis
      = ((s.tasks.filter (fun t => t.status == TaskStatus.pending)).isEmpty
          || s.ready_for_synthesis) :=
  task_executor_flag ag s

/-- C4 counterexample: a Pending task with the unregistered worker name
"graphology": graph building performs no worker validation (it is a total
function returning the fixed node/edge tables), no error is raised anywhere,
and the dispatcher silently marks the task Failed at dispatch time —
exactly the behaviour the claim denies. -/
theorem C4_counterexample :
    "graphology" ∉ registered_agents ∧
    build_graph = { nodes := graph_nodes, edges := fixed_edges,
                    cond_map := conditional_edge_map } ∧
    (task_executor_node ok_agents
        (mk_state [mk_task "1" "graphology" TaskStatus.pending])).tasks.map
        ResearchTask.status = [TaskStatus.failed] := by
  exact ⟨by decide, rfl, by decide⟩

/-- C4 (amended): `_build_graph` performs no validation of `assignedWorker`
names and cannot fail; a task whose worker is unregistered resolves to no
adapter at dispatch time and is silently marked Failed, all other fields
untouched — no RoutingError (the type does not exist in the code) is raised
at graph-build or at dispatch. -/
theorem C4_unregistered_silently_failed (ag : Agents) (t : ResearchTask)
    (h : t.assigned_agent ∉ registered_agents) :
    agent_for ag t.assigned_agent = none ∧
    resolve_pending ag t = { t with status := TaskStatus.failed } := by
  have hn := agent_for_eq_none ag t.assigned_agent h
  refine ⟨hn, ?_⟩
  apply resolve_pending_of_none
  simp [execute_single_task, mark_in_progress, hn]

/-- C4 witness: the unregistered worker name "graphology". -/
theorem C4_unregistered_silently_failed_witness :
    agent_for ok_agents (mk_task "1" "graphology" TaskStatus.pending).assigned_agent = none ∧
    resolve_pending ok_agents (mk_task "1" "graphology" TaskStatus.pending)
      = { mk_task "1" "graphology" TaskStatus.pending with status := TaskStatus.failed } :=
  C4_unregistered_silently_failed ok_agents _ (by decide)

theorem ceil_div_min_three (P : Nat) (hP : 0 < P) :
    ceil_div P (min P 3) = ceil_div P 3 := by
  rcases le_or_lt 3 P with h | h
  · rw [Nat.min_eq_right h]
  · rw [Nat.min_eq_left (by omega)]
    interval_cases P <;> rfl

/-- C5: with P ≥ 1 Pending tasks in the snapshot, the executor forms exactly
ceil(P/3) batches (3 is the code's hard-coded bound), every batch holds at
most 3 tasks, the batches cover exactly the Pending snapshot in order, and
after the single node invocation no task of the state is still Pending. -/
theorem C5_batching (s : DueDiligenceState)
    (hP : 0 < (s.tasks.filter (fun t => t.status == TaskStatus.pending)).length) :
    (executor_batches s).length
        = ceil_div (s.tasks.filter (fun t => t.status == TaskStatus.pending)).length 3 ∧
    (∀ b ∈ executor_batches s, b.length ≤ 3) ∧
    (executor_batches s).flatten
        = s.tasks.filter (fun t => t.status == TaskStatus.pending) ∧
    ∀ ag : Agents, ∀ t ∈ (task_executor_node ag s).tasks,
      t.status ≠ TaskStatus.pending := by
  have hn : 0 < min (s.tasks.filter (fun t => t.status == TaskStatus.pending)).length 3 := by
    omega
  refine ⟨?_, ?_, ?_, ?_⟩
  · simp only [executor_batches]
    rw [chunks_length _ hn]
    exact ceil_div_min_three _ hP
  · intro b hb
    simp only [executor_batches] at hb
    have hle := chunks_mem_length _ hn _ b hb
    omega
  · simp only [executor_batches]
    exact chunks_flatten _ hn _
  · intro ag
    exact task_executor_no_pending ag s

/-- C5 witness: four Pending tasks give two batches of sizes 3 and 1. -/
theorem C5_batching_witness :
    0 < ((mk_state [mk_task "1" "research" TaskStatus.pending,
        mk_task "2" "legal" TaskStatus.pending,
        mk_task "3" "osint" TaskStatus.pending,
        mk_task "4" "financial" TaskStatus.pending]).tasks.filter
          (fun t => t.status == TaskStatus.pending)).length ∧
    ((executor_batches (mk_state [mk_task "1" "research" TaskStatus.pending,
        mk_task "2" "legal" TaskStatus.pending,
        mk_task "3" "osint" TaskStatus.pending,
        mk_task "4" "financial" TaskStatus.pending])).length
      = ceil_div ((mk_state [mk_task "1" "research" TaskStatus.pending,
          mk_task "2" "legal" TaskStatus.pending,
          mk_task "3" "osint" TaskStatus.pending,
          mk_task "4" "financial" TaskStatus.pending]).tasks.filter
            (fun t => t.status == TaskStatus.pending)).length 3 ∧
     (∀ b ∈ executor_batches (mk_state [mk_task "1" "research" TaskStatus.pending,
          mk_task "2" "legal" TaskStatus.pending,
          mk_task "3" "osint" TaskStatus.pending,
          mk_task "4" "financial" TaskStatus.pending]), b.length ≤ 3) ∧
     (executor_batches (mk_state [mk_task "1" "research" TaskStatus.pending,
          mk_task "2" "legal" TaskStatus.pending,
          mk_task "3" "osint" TaskStatus.pending,
          mk_task "4" "financial" TaskStatus.pending])).flatten
        = (mk_state [mk_task "1" "research" TaskStatus.pending,
            mk_task "2" "legal" TaskStatus.pending,
            mk_task "3" "osint" TaskStatus.pending,
            mk_task "4" "financial" TaskStatus.pending]).tasks.filter
              (fun t => t.status == TaskStatus.pending) ∧
     ∀ ag : Agents, ∀ t ∈ (task_executor_node ag
          (mk_state [mk_task "1" "research" TaskStatus.pending,
            mk_task "2" "legal" TaskStatus.pending,
            mk_task "3" "osint" TaskStatus.pending,
            mk_task "4" "financial" TaskStatus.pending])).tasks,
        t.status ≠ TaskStatus.pending) :=
  ⟨by decide, C5_batching _ (by decide)⟩

/-- C6 counterexample: the research adapter raises; the task ends Failed but
the produced task record equals the input record with only the status field
changed — no non-empty error reason is recorded on the task (the data model
has no error field; results and citations stay empty). -/
theorem C6_counterexample :
    (task_executor_node err_agents
        (mk_state [mk_task "1" "research" TaskStatus.pending])).tasks
      = [{ mk_task "1" "research" TaskStatus.pending with status := TaskStatus.failed }] := by
  decide

/-- C6 (amended): on adapter exception (or unresolvable worker) the task ends
Failed, but no error reason is embedded in the task: every field except
status keeps exactly its input value; the error text is only printed to
stdout (due_diligence.py 163). -/
theorem C6_failed_without_reason (ag : Agents) (t : ResearchTask)
    (f : WorkerAdapter) (e : String)
    (hf : agent_for ag t.assigned_agent = some f)
    (he : f (mark_in_progress t) = Except.error e) :
    resolve_pending ag t = { t with status := TaskStatus.failed } :=
  resolve_pending_of_none ag t
    (execute_single_task_of_error ag (mark_in_progress t) f e hf he)

/-- C6 witness: the erroring research adapter on a concrete pending task. -/
theorem C6_failed_without_reason_witness :
    resolve_pending err_agents (mk_task "1" "research" TaskStatus.pending)
      = { mk_task "1" "research" TaskStatus.pending with status := TaskStatus.failed } :=
  C6_failed_without_reason err_agents _ err_agents.research "boom" rfl rfl

/-- C7 counterexample: checkpointer creation fails, yet `_ensure_compiled`
returns a compiled graph with no checkpointer attached: the run silently
continues without durable checkpointing and no typed persistence error
reaches the caller (no CheckpointPersistenceError type exists in the code;
the except branch at due_diligence.py 48-51 swallows every exception). -/
theorem C7_counterexample :
    ensure_compiled false (Except.error "connection refused")
      = { graph := build_graph, checkpointer := none } := rfl

/-- C7 (amended): whenever checkpointer creation raises, `_ensure_compiled`
catches the exception and compiles the graph without a checkpointer; the
run continues degraded instead of halting with a typed error. -/
theorem C7_silent_fallback_without_checkpointer (e : String) :
    ensure_compiled false (Except.error e)
      = { graph := build_graph, checkpointer := none } := rfl

/-- C8: across one executor invocation every task's status moves only along
the monotonic chain Pending→InProgress→(Completed|Failed): the output status
at each position is reachable from the input status through `StatusStep`
steps, and a task can be Pending in the output only by having been Pending
and untouched in the input — no status ever returns to Pending. -/
theorem C8_status_monotonic (ag : Agents) (s : DueDiligenceState) (i : Nat)
    (t t' : ResearchTask)
    (hin : s.tasks[i]? = some t)
    (hout : (task_executor_node ag s).tasks[i]? = some t') :
    Relation.ReflTransGen StatusStep t.status t'.status ∧
    (t'.status = TaskStatus.pending → t' = t) := by
  rw [task_executor_tasks, List.getElem?_map, hin] at hout
  have ht' : t' = if t.status == TaskStatus.pending then resolve_pending ag t else t := by
    simpa using hout.symm
  subst ht'
  by_cases hp : t.status == TaskStatus.pending
  · rw [if_pos hp]
    have hps : t.status = TaskStatus.pending := by simpa using hp
    constructor
    · rcases resolve_pending_status ag t with h | h
      · rw [hps, h]
        exact Relation.ReflTransGen.trans
          (Relation.ReflTransGen.single StatusStep.start)
          (Relation.ReflTransGen.single StatusStep.finish_ok)
      · rw [hps, h]
        exact Relation.ReflTransGen.trans
          (Relation.ReflTransGen.single StatusStep.start)
          (Relation.ReflTransGen.single StatusStep.finish_err)
    · intro hcon
      rcases resolve_pending_status ag t with h | h <;> rw [h] at hcon <;> cases hcon
  · rw [if_neg hp]
    exact ⟨Relation.ReflTransGen.refl, fun _ => rfl⟩

/-- C8 witness: a Pending research task resolved to Completed by the
always-succeeding adapters. -/
theorem C8_status_monotonic_witness :
    Relation.ReflTransGen StatusStep
      (mk_task "1" "research" TaskStatus.pending).status
      ({ mk_task "1" "research" TaskStatus.pending with
          status := TaskStatus.completed, results := [("summary", "ok")],
          citations := ["src1"], confidence_score := 1 } : ResearchTask).status ∧
    (({ mk_task "1" "research" TaskStatus.pending with
          status := TaskStatus.completed, results := [("summary", "ok")],
          citations := ["src1"], confidence_score := 1 } : ResearchTask).status
        = TaskStatus.pending →
      ({ mk_task "1" "research" TaskStatus.pending with
          status := TaskStatus.completed, results := [("summary", "ok")],
          citations := ["src1"], confidence_score := 1 } : ResearchTask)
        = mk_task "1" "research" TaskStatus.pending) :=
  C8_status_monotonic ok_agents (mk_state [mk_task "1" "research" TaskStatus.pending]) 0
    (mk_task "1" "research" TaskStatus.pending) _ (by decide) (by decide)

/-- C9: a single executor invocation on a state with at least one Pending
task resolves every Pending task of that state (each receives its individual
outcome, ending Completed or Failed), no Pending task remains in the output,
routing on the output returns the sentinel, and the conditional edge from
the executor then leads to "supervisor" — the five worker nodes are never
entered through it. -/
theorem C9_single_pass_resolves_all (ag : Agents) (s : DueDiligenceState)
    (hex : ∃ t ∈ s.tasks, t.status = TaskStatus.pending) :
    (∀ t ∈ (task_executor_node ag s).tasks, t.status ≠ TaskStatus.pending) ∧
    (∀ t ∈ s.tasks, t.status = TaskStatus.pending →
       resolve_pending ag t ∈ (task_executor_node ag s).tasks ∧
       ((resolve_pending ag t).status = TaskStatus.completed ∨
        (resolve_pending ag t).status = TaskStatus.failed)) ∧
    route_tasks (task_executor_node ag s) = "complete" ∧
    cond_target build_graph (route_tasks (task_executor_node ag s))
      = some "supervisor" := by
  obtain ⟨t0, ht0, hp0⟩ := hex
  refine ⟨task_executor_no_pending ag s, ?_, ?_, ?_⟩
  · intro t ht hp
    refine ⟨?_, resolve_pending_status ag t⟩
    rw [task_executor_tasks]
    refine List.mem_map.mpr ⟨t, ht, ?_⟩
    rw [if_pos (by simp [hp])]
  · exact route_tasks_eq_complete _ (task_executor_no_pending ag s)
  · rw [route_tasks_eq_complete _ (task_executor_no_pending ag s)]
    decide

/-- C9 witness: two Pending tasks, both resolved in one invocation. -/
theorem C9_single_pass_resolves_all_witness :
    (∀ t ∈ (task_executor_node ok_agents
        (mk_state [mk_task "1" "research" TaskStatus.pending,
          mk_task "2" "legal" TaskStatus.pending])).tasks,
      t.status ≠ TaskStatus.pending) ∧
    (∀ t ∈ (mk_state [mk_task "1" "research" TaskStatus.pending,
        mk_task "2" "legal" TaskStatus.pending]).tasks,
      t.status = TaskStatus.pending →
        resolve_pending ok_agents t ∈ (task_executor_node ok_agents
          (mk_state [mk_task "1" "research" TaskStatus.pending,
            mk_task "2" "legal" TaskStatus.pending])).tasks ∧
        ((resolve_pending ok_agents t).status = TaskStatus.completed ∨
         (resolve_pending ok_agents t).status = TaskStatus.failed)) ∧
    route_tasks (task_executor_node ok_agents
        (mk_state [mk_task "1" "research" TaskStatus.pending,
          mk_task "2" "legal" TaskStatus.pending])) = "complete" ∧
    cond_target build_graph (route_tasks (task_executor_node ok_agents
        (mk_state [mk_task "1" "research" TaskStatus.pending,
          mk_task "2" "legal" TaskStatus.pending])))
      = some "supervisor" :=
  C9_single_pass_resolves_all ok_agents _
    ⟨mk_task "1" "research" TaskStatus.pending, by decide, rfl⟩

/-- C10: the executor node is frame-correct: every state field other than
the task list and the `ready_for_synthesis` flag is returned unchanged; the
task list keeps its length and order with each task's id, description,
priority, assigned worker, output schema and timestamps untouched (only
status, results, citations and confidence may change); and the flag changes
only when the node is entered with no Pending task. -/
theorem C10_executor_frame (ag : Agents) (s : DueDiligenceState) :
    (task_executor_node ag s).messages = s.messages ∧
    (task_executor_node ag s).query = s.query ∧
    (task_executor_node ag s).entity_type = s.entity_type ∧
    (task_executor_node ag s).entity_name = s.entity_name ∧
    (task_executor_node ag s).research_plan = s.research_plan ∧
    (task_executor_node ag s).raw_findings = s.raw_findings ∧
    (task_executor_node ag s).synthesized_report = s.synthesized_report ∧
    (task_executor_node ag s).citations = s.citations ∧
    (task_executor_node ag s).confidence_scores = s.confidence_scores ∧
    (task_executor_node ag s).thread_id = s.thread_id ∧
    (task_executor_node ag s).session_id = s.session_id ∧
    (task_executor_node ag s).user_id = s.user_id ∧
    (task_executor_node ag s).metadata = s.metadata ∧
    (task_executor_node ag s).human_feedback_required = s.human_feedback_required ∧
    (task_executor_node ag s).completed = s.completed ∧
    (task_executor_node ag s).tasks.length = s.tasks.length ∧
    (task_executor_node ag s).tasks.map ResearchTask.id = s.tasks.map ResearchTask.id ∧
    (task_executor_node ag s).tasks.map ResearchTask.description
      = s.tasks.map ResearchTask.description ∧
    (task_executor_node ag s).tasks.map ResearchTask.priority
      = s.tasks.map ResearchTask.priority ∧
    (task_executor_node ag s).tasks.map ResearchTask.assigned_agent
      = s.tasks.map ResearchTask.assigned_agent ∧
    (task_executor_node ag s).tasks.map ResearchTask.output_schema
      = s.tasks.map ResearchTask.output_schema ∧
    (task_executor_node ag s).tasks.map ResearchTask.created_at
      = s.tasks.map ResearchTask.created_at ∧
    (task_executor_node ag s).tasks.map ResearchTask.completed_at
      = s.tasks.map ResearchTask.completed_at ∧
    (task_executor_node ag s).ready_for_synthesis
      = ((s.tasks.filter (fun t => t.status == TaskStatus.pending)).isEmpty
          || s.ready_for_synthesis) := by
  have key : ∀ {α : Type} (g : ResearchTask → α),
      (∀ u, g (resolve_pending ag u) = g u) →
      (task_executor_node ag s).tasks.map g = s.tasks.map g := by
    intro α g hg
    rw [task_executor_tasks, List.map_map]
    apply List.map_congr_left
    intro t _
    by_cases hp : t.status == TaskStatus.pending
    · show g (if t.status == TaskStatus.pending then resolve_pending ag t else t) = g t
      rw [if_pos hp, hg t]
    · show g (if t.status == TaskStatus.pending then resolve_pending ag t else t) = g t
      rw [if_neg hp]
  have hfr := fun u => resolve_pending_frame ag u
  refine ⟨?_, ?_, ?_, ?_, ?_, ?_, ?_, ?_, ?_, ?_, ?_, ?_, ?_, ?_, ?_, ?_,
    key ResearchTask.id (fun u => (hfr u).1),
    key ResearchTask.description (fun u => (hfr u).2.1),
    key ResearchTask.priority (fun u => (hfr u).2.2.1),
    key ResearchTask.assigned_agent (fun u => (hfr u).2.2.2.1),
    key ResearchTask.output_schema (fun u => (hfr u).2.2.2.2.1),
    key ResearchTask.created_at (fun u => (hfr u).2.2.2.2.2.1),
    key ResearchTask.completed_at (fun u => (hfr u).2.2.2.2.2.2),
    task_executor_flag ag s⟩ <;>
    rw [task_executor_eq]
  rw [List.length_map]
